import Mathlib

/-!
Verification development for the binance_th_bot trading bot.

The development shallowly embeds the trading core of the repository:

* `bot_engine.py` — `BotEngine.execute_trade`, `BotEngine.manage_open_positions`,
  `BotEngine.check_open_position` and the per-symbol body of `BotEngine.run`;
* `binance_api.py` — `BinanceAsyncClient.format_number`.

Python floats that hold prices and amounts are modelled as exact rationals
(`ℚ`); Python `decimal.Decimal` values are modelled by the `Dec` structure
(an integer coefficient together with a power-of-ten exponent).  Code that
can raise an exception is modelled with `Except`: `PyError.zeroDivision`
stands for `ZeroDivisionError` and `PyError.keyError` for `KeyError`.
The SQLite `trades` table is modelled as a list of `TradeRecord`s in
insertion order; the in-memory `self.peak_prices` dict as an association
list in insertion order.  Calls to the exchange gateway
(`client.place_order`) are modelled by an explicit `Except Unit OrderResult`
argument giving the outcome the gateway would return.
-/

namespace BinanceBot

/-- Order side, the `side` string of the Python code ("BUY" / "SELL"). -/
inductive Side where
  | BUY
  | SELL
deriving DecidableEq

/-- Status column of a trade record ("OPEN" / "CLOSED"). -/
inductive Status where
  | OPEN
  | CLOSED
deriving DecidableEq

/-- Log levels used by `BotEngine.log`. -/
inductive LogLevel where
  | info
  | success
  | warning
  | error
deriving DecidableEq

/-- Python exceptions that the embedded code can raise. -/
inductive PyError where
  | zeroDivision
  | keyError
deriving DecidableEq

/-- One row of the SQLite `trades` table. -/
structure TradeRecord where
  symbol : String
  order_id : String
  side : Side
  price : ℚ
  amount : ℚ
  strategy : String
  status : Status
deriving DecidableEq

/-- Configuration fields set in `BotEngine.__init__`. -/
structure Config where
  trade_amount_usdt : ℚ
  dca_drop_pct : ℚ
  ttp_activation_pct : ℚ
  ttp_trail_pct : ℚ
deriving DecidableEq

/-- The values assigned in `BotEngine.__init__`. -/
def default_config : Config :=
  { trade_amount_usdt := 15
    dca_drop_pct := 5 / 100
    ttp_activation_pct := 3 / 100
    ttp_trail_pct := 1 / 100 }

/-- The in-memory `self.peak_prices` dict, as an association list. -/
abbrev PeakMap := List (String × ℚ)

/-- Dict lookup: `self.peak_prices.get(symbol)` / `symbol in self.peak_prices`. -/
def pmLookup : PeakMap → String → Option ℚ
  | [], _ => none
  | (k, v) :: rest, s => if k = s then some v else pmLookup rest s

/-- Dict assignment `self.peak_prices[symbol] = v` (replaces in place, else appends). -/
def pmInsert (m : PeakMap) (s : String) (v : ℚ) : PeakMap :=
  match m with
  | [] => [(s, v)]
  | (k, w) :: rest => if k = s then (s, v) :: rest else (k, w) :: pmInsert rest s v

/-- Dict removal `self.peak_prices.pop(symbol, None)` (a Python dict holds a
key at most once, so dropping every binding of the key models the pop). -/
def pmErase (m : PeakMap) (s : String) : PeakMap :=
  m.filter fun p => decide (p.1 ≠ s)

/-- Result of a successful `client.place_order` call: the fields of the JSON
answer that `execute_trade` reads, each `none` when the key is missing. -/
structure OrderResult where
  orderId : Option String
  executedQty : Option ℚ
deriving DecidableEq

/-- Observable outcome of one `execute_trade` call: the ledger afterwards,
whether the exchange gateway was invoked, and the log events emitted. -/
structure ExecResult where
  ledger : List TradeRecord
  gateway_called : Bool
  logs : List LogLevel
deriving DecidableEq

/-- Quantity computation of `execute_trade` (bot_engine.py lines 179-182).
Dividing by a zero price raises `ZeroDivisionError` in Python. -/
def trade_qty (trade_amount_usdt : ℚ) (side : Side) (price : ℚ)
    (close_all_amount : Option ℚ) : Except PyError ℚ :=
  if side = Side.SELL ∧ close_all_amount.isSome then
    Except.ok (close_all_amount.getD 0)
  else if price = 0 then
    Except.error PyError.zeroDivision
  else
    Except.ok (trade_amount_usdt / price)

/-- Embedding of `BotEngine.execute_trade` (bot_engine.py lines 175-216).
The gateway outcome is the explicit argument `gw`; `Except.error` there is
the `place_order` call raising, which the function catches and logs. -/
def execute_trade (cfg : Config) (ledger : List TradeRecord) (symbol : String)
    (side : Side) (price : ℚ) (strategy_name : String)
    (close_all_amount : Option ℚ) (gw : Except Unit OrderResult) :
    Except PyError ExecResult :=
  match trade_qty cfg.trade_amount_usdt side price close_all_amount with
  | Except.error e => Except.error e
  | Except.ok qty =>
    let notional_value := qty * price
    if notional_value < 10 then
      Except.ok { ledger := ledger, gateway_called := false, logs := [LogLevel.warning] }
    else
      match gw with
      | Except.error _ =>
        Except.ok { ledger := ledger, gateway_called := true, logs := [LogLevel.error] }
      | Except.ok res =>
        let order_id := res.orderId.getD "TEST_ORDER_ID"
        let executed_qty := res.executedQty.getD qty
        let ledger1 :=
          match side with
          | Side.BUY =>
            ledger ++ [{ symbol := symbol, order_id := order_id, side := Side.BUY,
                         price := price, amount := executed_qty,
                         strategy := strategy_name, status := Status.OPEN }]
          | Side.SELL =>
            ledger.map fun t =>
              if t.symbol = symbol ∧ t.status = Status.OPEN then
                { t with status := Status.CLOSED }
              else t
        Except.ok { ledger := ledger1, gateway_called := true, logs := [LogLevel.success] }

/-- The SQL query `SELECT * FROM trades WHERE symbol = ? AND status = 'OPEN'`,
rows in insertion order. -/
def open_trades (ledger : List TradeRecord) (symbol : String) : List TradeRecord :=
  ledger.filter fun t => decide (t.symbol = symbol ∧ t.status = Status.OPEN)

/-- Embedding of `BotEngine.check_open_position` (bot_engine.py lines 168-173). -/
def check_open_position (ledger : List TradeRecord) (symbol : String) : Bool :=
  decide (0 < (open_trades ledger symbol).length)

/-- Sum `sum(t['amount'] for t in trades)` (bot_engine.py line 139). -/
def total_open_amount (trades : List TradeRecord) : ℚ :=
  (trades.map fun t => t.amount).sum

/-- Sum `sum(t['price'] * t['amount'] for t in trades)` (bot_engine.py line 140). -/
def total_open_cost (trades : List TradeRecord) : ℚ :=
  (trades.map fun t => t.price * t.amount).sum

/-- The guarded average of bot_engine.py line 141:
`total_cost / total_amount if total_amount > 0 else 0`. -/
def avg_price_of (trades : List TradeRecord) : ℚ :=
  if 0 < total_open_amount trades then total_open_cost trades / total_open_amount trades
  else 0

/-- A call to `execute_trade` made from inside `manage_open_positions`. -/
structure TradeCall where
  side : Side
  price : ℚ
  strategy : String
  close_all_amount : Option ℚ
deriving DecidableEq

/-- Outcome of one `manage_open_positions` call.  Python mutates
`self.peak_prices` in place, so the map after the call is reported even when
the call raises; `outcome` is `Except.error` when the call raises, and
otherwise carries the `execute_trade` call the function makes, if any. -/
structure ManageResult where
  peak_prices : PeakMap
  outcome : Except PyError (Option TradeCall)

/-- Embedding of `BotEngine.manage_open_positions` (bot_engine.py lines
127-163).  The internal `execute_trade` invocation is reported as a
`TradeCall` and performed by the caller (`run_symbol_step`), matching the
call-then-return control flow of the source.  Note that when `avg_price`
is `0` the statement `profit_pct = (current_price - avg_price) / avg_price`
raises `ZeroDivisionError`, and that the `self.peak_prices[symbol]` read on
line 160 raises `KeyError` when the key was neither present nor stored. -/
def manage_open_positions (cfg : Config) (peak_prices : PeakMap)
    (ledger : List TradeRecord) (symbol : String) (current_price : ℚ) :
    ManageResult :=
  let trades := open_trades ledger symbol
  if trades.isEmpty then
    { peak_prices := pmErase peak_prices symbol, outcome := Except.ok none }
  else
    let avg_price := avg_price_of trades
    if avg_price = 0 then
      { peak_prices := peak_prices, outcome := Except.error PyError.zeroDivision }
    else
      let profit_pct := (current_price - avg_price) / avg_price
      if profit_pct ≤ -cfg.dca_drop_pct then
        { peak_prices := peak_prices
          outcome := Except.ok (some
            { side := Side.BUY, price := current_price, strategy := "DCA",
              close_all_amount := none }) }
      else if cfg.ttp_activation_pct ≤ profit_pct then
        let current_peak := (pmLookup peak_prices symbol).getD avg_price
        let peaks1 :=
          if current_peak < current_price then pmInsert peak_prices symbol current_price
          else peak_prices
        match pmLookup peaks1 symbol with
        | none => { peak_prices := peaks1, outcome := Except.error PyError.keyError }
        | some pk =>
          if pk = 0 then
            { peak_prices := peaks1, outcome := Except.error PyError.zeroDivision }
          else if cfg.ttp_trail_pct ≤ (pk - current_price) / pk then
            { peak_prices := peaks1
              outcome := Except.ok (some
                { side := Side.SELL, price := current_price, strategy := "TTP",
                  close_all_amount := some (total_open_amount trades) }) }
          else
            { peak_prices := peaks1, outcome := Except.ok none }
      else
        { peak_prices := peak_prices, outcome := Except.ok none }

/-- Observable outcome of the per-symbol body of one `BotEngine.run` cycle. -/
structure StepResult where
  peak_prices : PeakMap
  ledger : List TradeRecord
  ledger_after_mgmt : List TradeRecord
  mgmt_call : Option TradeCall
  entry_buy : Bool
  error_logged : Bool
deriving DecidableEq

/-- Entry phase of the loop body (bot_engine.py lines 55-59): after the
position-management step left the ledger in state `led1`, check for an open
position and execute a fresh strategy BUY when there is none and the
selected strategy signals "BUY". -/
def entry_phase (cfg : Config) (peaks : PeakMap) (led1 : List TradeRecord)
    (symbol : String) (current_price : ℚ) (signal : String)
    (gw_entry : Except Unit OrderResult) (mgmt_call : Option TradeCall) :
    StepResult :=
  if check_open_position led1 symbol then
    { peak_prices := peaks, ledger := led1, ledger_after_mgmt := led1,
      mgmt_call := mgmt_call, entry_buy := false, error_logged := false }
  else if signal = "BUY" then
    match execute_trade cfg led1 symbol Side.BUY current_price "Strategy_Auto" none gw_entry with
    | Except.error _ =>
      { peak_prices := peaks, ledger := led1, ledger_after_mgmt := led1,
        mgmt_call := mgmt_call, entry_buy := false, error_logged := true }
    | Except.ok r =>
      { peak_prices := peaks, ledger := r.ledger, ledger_after_mgmt := led1,
        mgmt_call := mgmt_call, entry_buy := true, error_logged := false }
  else
    { peak_prices := peaks, ledger := led1, ledger_after_mgmt := led1,
      mgmt_call := mgmt_call, entry_buy := false, error_logged := false }

/-- Embedding of the per-symbol body of `BotEngine.run` (bot_engine.py lines
41-62): run `manage_open_positions` (performing the trade it requests), then
the entry phase.  The selected strategy's signal is the oracle argument
`signal`; any exception inside the body is caught by the `except` clause of
the loop and logged (`error_logged`). -/
def run_symbol_step (cfg : Config) (peaks : PeakMap) (ledger : List TradeRecord)
    (symbol : String) (current_price : ℚ) (signal : String)
    (gw_mgmt gw_entry : Except Unit OrderResult) : StepResult :=
  let m := manage_open_positions cfg peaks ledger symbol current_price
  match m.outcome with
  | Except.error _ =>
    { peak_prices := m.peak_prices, ledger := ledger, ledger_after_mgmt := ledger,
      mgmt_call := none, entry_buy := false, error_logged := true }
  | Except.ok none =>
    entry_phase cfg m.peak_prices ledger symbol current_price signal gw_entry none
  | Except.ok (some c) =>
    match execute_trade cfg ledger symbol c.side c.price c.strategy c.close_all_amount gw_mgmt with
    | Except.error _ =>
      { peak_prices := m.peak_prices, ledger := ledger, ledger_after_mgmt := ledger,
        mgmt_call := some c, entry_buy := false, error_logged := true }
    | Except.ok r =>
      entry_phase cfg m.peak_prices r.ledger symbol current_price signal gw_entry (some c)


/-! Decimal arithmetic: the embedding of `decimal.Decimal` as used by
`BinanceAsyncClient.format_number` in binance_api.py. -/

/-- A Python `decimal.Decimal` value `coeff × 10 ^ exp`, the sign carried by
the coefficient; `Decimal("0.00100000")` is `⟨100000, -8⟩`. -/
structure Dec where
  coeff : Int
  exp : Int
deriving DecidableEq

/-- Exact rational value of a decimal. -/
def Dec.toRat (d : Dec) : ℚ := (d.coeff : ℚ) * 10 ^ d.exp

/-- Trailing-zero stripping done by `Decimal.normalize`: divide the
coefficient by 10 while it is a nonzero multiple of 10, raising the
exponent.  `fuel` bounds the recursion; `Dec.normalize` passes the
coefficient's absolute value, which dominates its digit count. -/
def stripZeros : Nat → Int → Int → Int × Int
  | 0, c, e => (c, e)
  | fuel + 1, c, e =>
    if c ≠ 0 ∧ c % 10 = 0 then stripZeros fuel (c / 10) (e + 1) else (c, e)

/-- `Decimal.normalize()`: zero collapses to `0E+0`, otherwise trailing
zeros of the coefficient move into the exponent. -/
def Dec.normalize (d : Dec) : Dec :=
  if d.coeff = 0 then ⟨0, 0⟩
  else ⟨(stripZeros d.coeff.natAbs d.coeff d.exp).1,
        (stripZeros d.coeff.natAbs d.coeff d.exp).2⟩

/-- Truncation toward zero of a rational: the rounding used by `Decimal`
integer division (`//` truncates toward zero, unlike `int` floor division). -/
def truncQ (q : ℚ) : ℤ := if 0 ≤ q then ⌊q⌋ else ⌈q⌉

/-- Decimal floor division `a // b` (divide-integer): the exact quotient
truncated toward zero, with result exponent 0. -/
def Dec.floordiv (a b : Dec) : Dec := ⟨truncQ (a.toRat / b.toRat), 0⟩

/-- Exact decimal multiplication. -/
def Dec.mul (a b : Dec) : Dec := ⟨a.coeff * b.coeff, a.exp + b.exp⟩

/-- Decimal digits of a natural number, most significant first; `fuel`
bounds the recursion depth and `natStr` passes `n + 1`, which dominates the
digit count. -/
def natDigits : Nat → Nat → List Char
  | 0, _ => []
  | fuel + 1, n =>
    if n = 0 then [] else natDigits fuel (n / 10) ++ [Char.ofNat (48 + n % 10)]

/-- Decimal digit string of a natural number. -/
def natStr (n : Nat) : List Char := if n = 0 then ['0'] else natDigits (n + 1) n

/-- Characters of the `f"{d:f}"` fixed-point rendering: optional sign, then
the coefficient digits followed by `exp` zeros when `exp ≥ 0`, or with the
decimal point inserted `-exp` places from the right (zero-padded on the
left) when `exp < 0`.  No exponent marker is ever produced. -/
def Dec.fmtChars (d : Dec) : List Char :=
  let sign : List Char := if d.coeff < 0 then ['-'] else []
  let mag := natStr d.coeff.natAbs
  if 0 ≤ d.exp then
    sign ++ mag ++ List.replicate d.exp.toNat (Char.ofNat 48)
  else
    let k := (-d.exp).toNat
    let ds := if mag.length ≤ k then
        List.replicate (k + 1 - mag.length) (Char.ofNat 48) ++ mag
      else mag
    sign ++ (ds.take (ds.length - k) ++ [Char.ofNat 46] ++ ds.drop (ds.length - k))

/-- The `f"{d:f}"` string returned by `format_number`. -/
def Dec.fmt (d : Dec) : String := String.mk d.fmtChars

/-- One entry of `self.symbol_filters[symbol][filter_type]`: the two step
fields `format_number` reads, an absent key modelled as `none`. -/
structure ExchFilter where
  stepSize : Option Dec
  tickSize : Option Dec
deriving DecidableEq

/-- Python dict lookup on a string-keyed association list. -/
def alistLookup {b : Type} : List (String × b) → String → Option b
  | [], _ => none
  | (k, v) :: rest, s => if k = s then some v else alistLookup rest s

/-- Embedding of `BinanceAsyncClient.format_number` (binance_api.py lines
61-85): with no filter data for the symbol, or no step size in the filter,
return the value's plain fixed-point string; otherwise quantize as
`(value // step) * step` against the normalized step size and render the
result. -/
def format_number (symbol_filters : List (String × List (String × ExchFilter)))
    (symbol : String) (value : Dec) (filter_type : String) : String :=
  match alistLookup symbol_filters symbol with
  | none => value.fmt
  | some filters =>
    let f := (alistLookup filters filter_type).getD ⟨none, none⟩
    match f.stepSize.orElse (fun _ => f.tickSize) with
    | none => value.fmt
    | some step_size_str =>
      let step_dec := step_size_str.normalize
      ((value.floordiv step_dec).mul step_dec).fmt

/-! Shared concrete fixtures used by witnesses and counterexamples. -/

/-- A single open BTCUSDT lot bought at price 100 with amount 1. -/
def btcRec : TradeRecord :=
  { symbol := "BTCUSDT", order_id := "1", side := Side.BUY, price := 100, amount := 1,
    strategy := "Strategy_Auto", status := Status.OPEN }

/-- The spec's weighted-average example: OPEN records with (price, amount)
pairs (100, 1), (90, 1) and (80, 2). -/
def avgLedger : List TradeRecord :=
  [{ symbol := "BTCUSDT", order_id := "1", side := Side.BUY, price := 100, amount := 1,
     strategy := "Strategy_Auto", status := Status.OPEN },
   { symbol := "BTCUSDT", order_id := "2", side := Side.BUY, price := 90, amount := 1,
     strategy := "Strategy_Auto", status := Status.OPEN },
   { symbol := "BTCUSDT", order_id := "3", side := Side.BUY, price := 80, amount := 2,
     strategy := "Strategy_Auto", status := Status.OPEN }]

/-- An OPEN record whose filled amount is zero (a zero-quantity fill reported
by the gateway), making the symbol's total open amount zero. -/
def zeroAmtRec : TradeRecord :=
  { symbol := "BTCUSDT", order_id := "9", side := Side.BUY, price := 100, amount := 0,
    strategy := "Strategy_Auto", status := Status.OPEN }

/-- Filter data with a LOT_SIZE step size of `Decimal("0.00100000")`. -/
def exFilters : List (String × List (String × ExchFilter)) :=
  [("BTCUSDT", [("LOT_SIZE", ⟨some ⟨100000, -8⟩, none⟩)])]

/-! Helper lemmas about the peak-price map and the ledger queries. -/

theorem pmLookup_pmInsert_self (m : PeakMap) (s : String) (v : ℚ) :
    pmLookup (pmInsert m s v) s = some v := by
  induction m with
  | nil => simp [pmInsert, pmLookup]
  | cons kv rest ih =>
    obtain ⟨k, w⟩ := kv
    by_cases h : k = s
    · simp [pmInsert, pmLookup, h]
    · simp [pmInsert, pmLookup, h, ih]

theorem pmLookup_pmErase_self (m : PeakMap) (s : String) :
    pmLookup (pmErase m s) s = none := by
  induction m with
  | nil => simp [pmErase, pmLookup]
  | cons kv rest ih =>
    obtain ⟨k, w⟩ := kv
    by_cases h : k = s
    · simpa [pmErase, pmLookup, h] using ih
    · simpa [pmErase, pmLookup, h] using ih

theorem mem_open_trades {ledger : List TradeRecord} {symbol : String} {t : TradeRecord} :
    t ∈ open_trades ledger symbol ↔
      t ∈ ledger ∧ t.symbol = symbol ∧ t.status = Status.OPEN := by
  simp [open_trades, List.mem_filter]

theorem open_trades_append (l₁ l₂ : List TradeRecord) (symbol : String) :
    open_trades (l₁ ++ l₂) symbol = open_trades l₁ symbol ++ open_trades l₂ symbol := by
  simp [open_trades, List.filter_append]

/-! Helper lemmas characterizing each branch of `manage_open_positions`. -/

theorem manage_empty_spec (cfg : Config) (peaks : PeakMap) (ledger : List TradeRecord)
    (symbol : String) (price : ℚ) (hempty : open_trades ledger symbol = []) :
    manage_open_positions cfg peaks ledger symbol price =
      { peak_prices := pmErase peaks symbol, outcome := Except.ok none } := by
  unfold manage_open_positions
  simp [hempty]

theorem manage_dca_spec (cfg : Config) (peaks : PeakMap) (ledger : List TradeRecord)
    (symbol : String) (price : ℚ)
    (hne : open_trades ledger symbol ≠ [])
    (havg : avg_price_of (open_trades ledger symbol) ≠ 0)
    (hdca : (price - avg_price_of (open_trades ledger symbol)) /
        avg_price_of (open_trades ledger symbol) ≤ -cfg.dca_drop_pct) :
    manage_open_positions cfg peaks ledger symbol price =
      { peak_prices := peaks
        outcome := Except.ok (some
          { side := Side.BUY, price := price, strategy := "DCA",
            close_all_amount := none }) } := by
  unfold manage_open_positions
  simp [hne, havg, hdca]

theorem manage_noaction_spec (cfg : Config) (peaks : PeakMap) (ledger : List TradeRecord)
    (symbol : String) (price : ℚ)
    (hne : open_trades ledger symbol ≠ [])
    (havg : avg_price_of (open_trades ledger symbol) ≠ 0)
    (hdca : ¬ (price - avg_price_of (open_trades ledger symbol)) /
        avg_price_of (open_trades ledger symbol) ≤ -cfg.dca_drop_pct)
    (hact : ¬ cfg.ttp_activation_pct ≤ (price - avg_price_of (open_trades ledger symbol)) /
        avg_price_of (open_trades ledger symbol)) :
    manage_open_positions cfg peaks ledger symbol price =
      { peak_prices := peaks, outcome := Except.ok none } := by
  unfold manage_open_positions
  simp [hne, havg, hdca, hact]

theorem manage_ttp_spec (cfg : Config) (peaks : PeakMap) (ledger : List TradeRecord)
    (symbol : String) (price : ℚ) (avg peak0 pk : ℚ)
    (havgdef : avg = avg_price_of (open_trades ledger symbol))
    (hpeak0 : peak0 = (pmLookup peaks symbol).getD avg)
    (hpk : pk = max peak0 price)
    (hne : open_trades ledger symbol ≠ [])
    (havg : 0 < avg)
    (hactpos : 0 < cfg.ttp_activation_pct)
    (hdcapos : 0 ≤ cfg.dca_drop_pct)
    (hact : cfg.ttp_activation_pct ≤ (price - avg) / avg) :
    manage_open_positions cfg peaks ledger symbol price =
      { peak_prices := if peak0 < price then pmInsert peaks symbol price else peaks
        outcome := Except.ok (if cfg.ttp_trail_pct ≤ (pk - price) / pk then
          some { side := Side.SELL, price := price, strategy := "TTP",
                 close_all_amount := some (total_open_amount (open_trades ledger symbol)) }
        else none) } ∧
    pmLookup (manage_open_positions cfg peaks ledger symbol price).peak_prices symbol =
      some pk ∧
    0 < pk := by
  have havg0 : avg ≠ 0 := ne_of_gt havg
  have hprofit : 0 < (price - avg) / avg := lt_of_lt_of_le hactpos hact
  have hsub : 0 < price - avg := by
    have h := mul_pos hprofit havg
    rwa [div_mul_cancel₀ _ havg0] at h
  have hprice : avg < price := by linarith
  have hprice0 : price ≠ 0 := ne_of_gt (lt_trans havg hprice)
  have hdca_false : ¬ (price - avg) / avg ≤ -cfg.dca_drop_pct := by
    intro h; linarith
  have h0pk : 0 < pk := by
    rw [hpk]; exact lt_trans havg (lt_of_lt_of_le hprice (le_max_right _ _))
  have hpkne : pk ≠ 0 := ne_of_gt h0pk
  rcases hl : pmLookup peaks symbol with _ | p
  · have hpeak0a : peak0 = avg := by rw [hpeak0, hl]; rfl
    have hpka : pk = price := by rw [hpk, hpeak0a, max_eq_right hprice.le]
    refine ⟨?_, ?_, h0pk⟩
    · rw [if_pos (hpeak0a ▸ hprice)]
      simp only [manage_open_positions, ← havgdef]
      simp [hne, havg0, hdca_false, hact, hl, hprice, hprice0,
        pmLookup_pmInsert_self, hpka]
      split_ifs <;> rfl
    · simp only [manage_open_positions, ← havgdef]
      simp [hne, havg0, hdca_false, hact, hl, hprice, hprice0,
        pmLookup_pmInsert_self, hpka]
      split_ifs <;> simp [pmLookup_pmInsert_self]
  · have hpeak0a : peak0 = p := by rw [hpeak0, hl]; rfl
    by_cases hcmp : p < price
    · have hpka : pk = price := by rw [hpk, hpeak0a, max_eq_right hcmp.le]
      refine ⟨?_, ?_, h0pk⟩
      · rw [if_pos (hpeak0a ▸ hcmp)]
        simp only [manage_open_positions, ← havgdef]
        simp [hne, havg0, hdca_false, hact, hl, hcmp, hprice0,
          pmLookup_pmInsert_self, hpka]
        split_ifs <;> rfl
      · simp only [manage_open_positions, ← havgdef]
        simp [hne, havg0, hdca_false, hact, hl, hcmp, hprice0,
          pmLookup_pmInsert_self, hpka]
        split_ifs <;> simp [pmLookup_pmInsert_self]
    · have hple : price ≤ p := not_lt.mp hcmp
      have hpka : pk = p := by rw [hpk, hpeak0a, max_eq_left hple]
      have hp0 : p ≠ 0 := hpka ▸ hpkne
      refine ⟨?_, ?_, h0pk⟩
      · rw [if_neg (hpeak0a ▸ hcmp)]
        simp only [manage_open_positions, ← havgdef]
        simp [hne, havg0, hdca_false, hact, hl, hcmp, hp0, hpka]
        split_ifs <;> rfl
      · simp only [manage_open_positions, ← havgdef]
        simp [hne, havg0, hdca_false, hact, hl, hcmp, hp0, hpka]
        split_ifs <;> simp [hl]

theorem status_closed_ne_open : (Status.CLOSED = Status.OPEN) = False := by
  simp

theorem hold_ne_buy : (("HOLD" : String) = "BUY") = False := by
  simp

theorem open_trades_btcRec : open_trades [btcRec] "BTCUSDT" = [btcRec] := by
  norm_num [open_trades, btcRec]

theorem avg_btcRec : avg_price_of (open_trades [btcRec] "BTCUSDT") = 100 := by
  rw [open_trades_btcRec]
  norm_num [avg_price_of, total_open_amount, total_open_cost, btcRec]

theorem total_btcRec : total_open_amount (open_trades [btcRec] "BTCUSDT") = 1 := by
  rw [open_trades_btcRec]
  norm_num [total_open_amount, btcRec]

theorem ne_nil_btcRec : open_trades [btcRec] "BTCUSDT" ≠ [] := by
  rw [open_trades_btcRec]; exact List.cons_ne_nil _ _

/-! Claim theorems. -/

/-- C1: whenever the computed notional `quantity × price` is strictly below
10, `execute_trade` logs a warning and returns with the ledger unchanged; the
exchange gateway is never called and nothing is written. -/
theorem execute_trade_min_notional_reject (cfg : Config) (ledger : List TradeRecord)
    (symbol : String) (side : Side) (price : ℚ) (strategy_name : String)
    (close_all_amount : Option ℚ) (gw : Except Unit OrderResult) (q : ℚ)
    (hq : trade_qty cfg.trade_amount_usdt side price close_all_amount = Except.ok q)
    (hn : q * price < 10) :
    execute_trade cfg ledger symbol side price strategy_name close_all_amount gw =
      Except.ok { ledger := ledger, gateway_called := false, logs := [LogLevel.warning] } := by
  unfold execute_trade
  rw [hq]
  simp [hn]

/-- Witness for C1: a SELL of 0.05 BTC at price 100 has notional 5 < 10 and
is rejected with the ledger untouched and no gateway call. -/
theorem execute_trade_min_notional_reject_witness :
    execute_trade default_config [btcRec] "BTCUSDT" Side.SELL 100 "TTP" (some (1/20))
        (Except.ok { orderId := some "2", executedQty := none }) =
      Except.ok { ledger := [btcRec], gateway_called := false, logs := [LogLevel.warning] } :=
  execute_trade_min_notional_reject default_config [btcRec] "BTCUSDT" Side.SELL 100 "TTP"
    (some (1/20)) (Except.ok { orderId := some "2", executedQty := none }) (1/20)
    (by norm_num [trade_qty]) (by norm_num)

/-- C5: when the gateway call fails (raises), `execute_trade` catches it,
logs an error event, leaves the ledger unchanged and returns normally. -/
theorem execute_trade_gateway_failure (cfg : Config) (ledger : List TradeRecord)
    (symbol : String) (side : Side) (price : ℚ) (strategy_name : String)
    (close_all_amount : Option ℚ) (q : ℚ)
    (hq : trade_qty cfg.trade_amount_usdt side price close_all_amount = Except.ok q)
    (hn : ¬ q * price < 10) :
    execute_trade cfg ledger symbol side price strategy_name close_all_amount
        (Except.error ()) =
      Except.ok { ledger := ledger, gateway_called := true, logs := [LogLevel.error] } := by
  unfold execute_trade
  rw [hq]
  simp [hn]

/-- Witness for C5: a BUY at price 100 (quantity 15/100, notional 15) whose
gateway call raises is caught, logged, and leaves the ledger unchanged. -/
theorem execute_trade_gateway_failure_witness :
    execute_trade default_config [btcRec] "BTCUSDT" Side.BUY 100 "Strategy_Auto" none
        (Except.error ()) =
      Except.ok { ledger := [btcRec], gateway_called := true, logs := [LogLevel.error] } :=
  execute_trade_gateway_failure default_config [btcRec] "BTCUSDT" Side.BUY 100
    "Strategy_Auto" none (15/100)
    (by norm_num [trade_qty, default_config]) (by norm_num)

/-- C3: with a non-empty open position, when `profitPct ≤ -dcaDropPct` the
position manager requests exactly one averaging-down BUY (strategy "DCA")
and returns at once: the peak map is untouched and no trailing-stop
evaluation happens, so at most one management action is taken. -/
theorem dca_single_action (cfg : Config) (peaks : PeakMap) (ledger : List TradeRecord)
    (symbol : String) (price : ℚ)
    (hne : open_trades ledger symbol ≠ [])
    (havg : avg_price_of (open_trades ledger symbol) ≠ 0)
    (hdca : (price - avg_price_of (open_trades ledger symbol)) /
        avg_price_of (open_trades ledger symbol) ≤ -cfg.dca_drop_pct) :
    manage_open_positions cfg peaks ledger symbol price =
      { peak_prices := peaks,
        outcome := Except.ok (some
          { side := Side.BUY, price := price, strategy := "DCA", close_all_amount := none }) } :=
  manage_dca_spec cfg peaks ledger symbol price hne havg hdca

/-- Witness for C3: average price 100, current price 94, profit -6% ≤ -5%:
the DCA BUY is requested and the peak map stays as it was. -/
theorem dca_single_action_witness :
    manage_open_positions default_config [("BTCUSDT", 103)] [btcRec] "BTCUSDT" 94 =
      { peak_prices := [("BTCUSDT", 103)],
        outcome := Except.ok (some
          { side := Side.BUY, price := 94, strategy := "DCA", close_all_amount := none }) } :=
  dca_single_action default_config [("BTCUSDT", 103)] [btcRec] "BTCUSDT" 94
    ne_nil_btcRec (by rw [avg_btcRec]; norm_num)
    (by rw [avg_btcRec]; norm_num [default_config])

/-- C2: with a non-empty open position and `profitPct ≥ ttpActivationPct`
the trailing stop is active: afterwards the stored peak equals
`max (storedPeak or avgPrice) currentPrice`, and the full-position SELL for
the total open amount is requested exactly when the drawdown
`(peak - currentPrice) / peak` reaches `ttpTrailPct`. -/
theorem ttp_peak_update_and_sell_trigger (cfg : Config) (peaks : PeakMap)
    (ledger : List TradeRecord) (symbol : String) (price : ℚ)
    (hne : open_trades ledger symbol ≠ [])
    (havg : 0 < avg_price_of (open_trades ledger symbol))
    (hactpos : 0 < cfg.ttp_activation_pct)
    (hdcapos : 0 ≤ cfg.dca_drop_pct)
    (hact : cfg.ttp_activation_pct ≤
      (price - avg_price_of (open_trades ledger symbol)) /
        avg_price_of (open_trades ledger symbol)) :
    pmLookup (manage_open_positions cfg peaks ledger symbol price).peak_prices symbol =
      some (max ((pmLookup peaks symbol).getD (avg_price_of (open_trades ledger symbol))) price) ∧
    ((manage_open_positions cfg peaks ledger symbol price).outcome =
        Except.ok (some
          { side := Side.SELL, price := price, strategy := "TTP",
            close_all_amount := some (total_open_amount (open_trades ledger symbol)) }) ↔
      cfg.ttp_trail_pct ≤
        (max ((pmLookup peaks symbol).getD (avg_price_of (open_trades ledger symbol))) price
            - price) /
          max ((pmLookup peaks symbol).getD (avg_price_of (open_trades ledger symbol))) price) := by
  obtain ⟨h1, h2, h3⟩ := manage_ttp_spec cfg peaks ledger symbol price _ _ _ rfl rfl rfl
    hne havg hactpos hdcapos hact
  refine ⟨h2, ?_⟩
  rw [h1]
  by_cases hc : cfg.ttp_trail_pct ≤
      (max ((pmLookup peaks symbol).getD (avg_price_of (open_trades ledger symbol))) price
          - price) /
        max ((pmLookup peaks symbol).getD (avg_price_of (open_trades ledger symbol))) price
  · simp [hc]
  · simp [hc]

/-- Witness for C2, the spec's scenario at its third step: average price 100,
stored peak 106 (after prices 104 and 106), current price 104.8: the peak
stays 106 and the SELL for the whole amount fires, the drawdown
(106 - 104.8) / 106 ≈ 0.0113 being at least 0.01. -/
theorem ttp_peak_update_and_sell_trigger_witness :
    pmLookup (manage_open_positions default_config [("BTCUSDT", 106)] [btcRec]
        "BTCUSDT" (524/5)).peak_prices "BTCUSDT" = some 106 ∧
    (manage_open_positions default_config [("BTCUSDT", 106)] [btcRec]
        "BTCUSDT" (524/5)).outcome =
      Except.ok (some
        { side := Side.SELL, price := 524/5, strategy := "TTP",
          close_all_amount := some 1 }) := by
  have h := ttp_peak_update_and_sell_trigger default_config [("BTCUSDT", 106)] [btcRec]
    "BTCUSDT" (524/5) ne_nil_btcRec (by rw [avg_btcRec]; norm_num)
    (by norm_num [default_config]) (by norm_num [default_config])
    (by rw [avg_btcRec]; norm_num [default_config])
  have hget : (pmLookup [("BTCUSDT", 106)] "BTCUSDT").getD
      (avg_price_of (open_trades [btcRec] "BTCUSDT")) = 106 := by
    norm_num [pmLookup]
  have hmax : max ((pmLookup [("BTCUSDT", 106)] "BTCUSDT").getD
      (avg_price_of (open_trades [btcRec] "BTCUSDT"))) (524/5 : ℚ) = 106 := by
    rw [hget]
    exact max_eq_left (by norm_num)
  refine ⟨?_, ?_⟩
  · rw [h.1, hmax]
  · rw [← total_btcRec]
    exact h.2.mpr (by rw [hmax]; norm_num [default_config])

/-- C10: under the preconditions of the trailing-stop branch (non-empty open
position, positive average price, positive activation threshold met by the
profit), the `peak_prices[symbol]` read always finds a stored entry and
`manage_open_positions` raises nothing. -/
theorem ttp_branch_no_key_error (cfg : Config) (peaks : PeakMap)
    (ledger : List TradeRecord) (symbol : String) (price : ℚ)
    (hne : open_trades ledger symbol ≠ [])
    (havg : 0 < avg_price_of (open_trades ledger symbol))
    (hactpos : 0 < cfg.ttp_activation_pct)
    (hdcapos : 0 ≤ cfg.dca_drop_pct)
    (hact : cfg.ttp_activation_pct ≤
      (price - avg_price_of (open_trades ledger symbol)) /
        avg_price_of (open_trades ledger symbol)) :
    (∀ e : PyError, (manage_open_positions cfg peaks ledger symbol price).outcome ≠
      Except.error e) ∧
    (pmLookup (manage_open_positions cfg peaks ledger symbol price).peak_prices
      symbol).isSome = true := by
  obtain ⟨h1, h2, h3⟩ := manage_ttp_spec cfg peaks ledger symbol price _ _ _ rfl rfl rfl
    hne havg hactpos hdcapos hact
  refine ⟨?_, ?_⟩
  · intro e he
    rw [h1] at he
    simp only [ManageResult.outcome] at he
    split_ifs at he
  · rw [h2]; rfl

/-- Witness for C10: with no stored peak, average price 100 and current
price 104 the branch stores 104 and raises no `KeyError`. -/
theorem ttp_branch_no_key_error_witness :
    (∀ e : PyError, (manage_open_positions default_config [] [btcRec] "BTCUSDT" 104).outcome ≠
      Except.error e) ∧
    (pmLookup (manage_open_positions default_config [] [btcRec] "BTCUSDT" 104).peak_prices
      "BTCUSDT").isSome = true :=
  ttp_branch_no_key_error default_config [] [btcRec] "BTCUSDT" 104
    ne_nil_btcRec (by rw [avg_btcRec]; norm_num)
    (by norm_num [default_config]) (by norm_num [default_config])
    (by rw [avg_btcRec]; norm_num [default_config])

/-- C4 (amended): with a positive total open amount the average entry price
is `Σ(price×amount) / Σ(amount)` (the spec's example records give 87.5, not
82.5), and `avg_price` itself never raises; but when the average is zero —
in particular when the total open amount is zero, where the guard yields
`avg_price = 0` — the following `profit_pct` division raises
`ZeroDivisionError`. -/
theorem weighted_avg_formula_and_zero_total_raise (cfg : Config) (peaks : PeakMap)
    (ledger : List TradeRecord) (symbol : String) (current_price : ℚ) :
    (0 < total_open_amount (open_trades ledger symbol) →
      avg_price_of (open_trades ledger symbol) =
        total_open_cost (open_trades ledger symbol) /
          total_open_amount (open_trades ledger symbol)) ∧
    (open_trades ledger symbol ≠ [] →
      avg_price_of (open_trades ledger symbol) = 0 →
      (manage_open_positions cfg peaks ledger symbol current_price).outcome =
        Except.error PyError.zeroDivision) := by
  constructor
  · intro h
    simp [avg_price_of, h]
  · intro hne h0
    unfold manage_open_positions
    simp [hne, h0]

/-- Witness for C4: the example records give (100+90+160)/4 = 87.5, and a
symbol whose only OPEN record has amount 0 makes the manager raise. -/
theorem weighted_avg_formula_and_zero_total_raise_witness :
    avg_price_of (open_trades avgLedger "BTCUSDT") =
      total_open_cost (open_trades avgLedger "BTCUSDT") /
        total_open_amount (open_trades avgLedger "BTCUSDT") ∧
    avg_price_of (open_trades avgLedger "BTCUSDT") = 175/2 ∧
    (manage_open_positions default_config [] [zeroAmtRec] "BTCUSDT" 50).outcome =
      Except.error PyError.zeroDivision := by
  refine ⟨(weighted_avg_formula_and_zero_total_raise default_config [] avgLedger "BTCUSDT"
      50).1 (by norm_num [avgLedger, open_trades, total_open_amount]), ?_,
    (weighted_avg_formula_and_zero_total_raise default_config [] [zeroAmtRec] "BTCUSDT"
      50).2 (by norm_num [zeroAmtRec, open_trades])
      (by norm_num [zeroAmtRec, open_trades, avg_price_of, total_open_amount])⟩
  norm_num [avgLedger, open_trades, avg_price_of, total_open_amount, total_open_cost]

/-- Counterexample for C4: the spec's example value 82.5 is wrong — the
records (100,1), (90,1), (80,2) average to 87.5 — and with a non-empty OPEN
set of total amount zero the profit computation raises instead of being
guarded. -/
theorem weighted_avg_example_counterexample :
    avg_price_of (open_trades avgLedger "BTCUSDT") ≠ 165/2 ∧
    (manage_open_positions default_config [] [zeroAmtRec] "BTCUSDT" 50).outcome =
      Except.error PyError.zeroDivision := by
  constructor
  · norm_num [avgLedger, open_trades, avg_price_of, total_open_amount, total_open_cost]
  · unfold manage_open_positions
    norm_num [zeroAmtRec, open_trades, avg_price_of, total_open_amount]

/-- C7 (amended): a successful SELL rewrites the ledger in a single commit,
closing every OPEN record of the symbol at once; immediately afterwards
every record of the symbol is CLOSED.  (The stronger every-cycle invariant
that a symbol's records are all OPEN or all CLOSED fails once a later BUY
follows the closed group; see the counterexample.) -/
theorem sell_group_close (cfg : Config) (ledger : List TradeRecord) (symbol : String)
    (price : ℚ) (strategy_name : String) (amt : ℚ) (res : OrderResult)
    (hn : ¬ amt * price < 10) :
    execute_trade cfg ledger symbol Side.SELL price strategy_name (some amt)
        (Except.ok res) =
      Except.ok
        { ledger := ledger.map fun t =>
            if t.symbol = symbol ∧ t.status = Status.OPEN then
              { t with status := Status.CLOSED }
            else t,
          gateway_called := true, logs := [LogLevel.success] } ∧
    ∀ t ∈ (ledger.map fun t =>
        if t.symbol = symbol ∧ t.status = Status.OPEN then
          { t with status := Status.CLOSED }
        else t), t.symbol = symbol → t.status = Status.CLOSED := by
  constructor
  · unfold execute_trade trade_qty
    simp [hn]
  · intro t ht hsym
    rcases List.mem_map.mp ht with ⟨t0, ht0, rfl⟩
    by_cases h : t0.symbol = symbol ∧ t0.status = Status.OPEN
    · simp [h]
    · rw [if_neg h] at hsym ⊢
      cases hstat : t0.status with
      | OPEN => exact absurd ⟨hsym, hstat⟩ h
      | CLOSED => rfl

/-- Witness for C7: selling the single open BTCUSDT lot at price 106 closes
it in the committed ledger. -/
theorem sell_group_close_witness :
    execute_trade default_config [btcRec] "BTCUSDT" Side.SELL 106 "TTP" (some 1)
        (Except.ok { orderId := some "2", executedQty := some 1 }) =
      Except.ok
        { ledger := [{ btcRec with status := Status.CLOSED }],
          gateway_called := true, logs := [LogLevel.success] } ∧
    ∀ t ∈ [{ btcRec with status := Status.CLOSED }],
      t.symbol = "BTCUSDT" → t.status = Status.CLOSED := by
  have h := sell_group_close default_config [btcRec] "BTCUSDT" 106 "TTP" 1
    { orderId := some "2", executedQty := some 1 } (by norm_num)
  refine ⟨?_, ?_⟩
  · rw [h.1]
    norm_num [btcRec]
  · intro t ht _
    simp only [List.mem_singleton] at ht
    subst ht
    rfl

/-- Counterexample for C7: the reachable call sequence BUY, close-all SELL,
BUY leaves BTCUSDT with one CLOSED and one OPEN record, so at the end of a
settled sequence the symbol's records are neither all OPEN nor all CLOSED. -/
theorem trade_history_mixed_status_counterexample :
    execute_trade default_config [] "BTCUSDT" Side.BUY 100 "Strategy_Auto" none
        (Except.ok { orderId := some "1", executedQty := some 1 }) =
      Except.ok { ledger := [btcRec], gateway_called := true, logs := [LogLevel.success] } ∧
    execute_trade default_config [btcRec] "BTCUSDT" Side.SELL 106 "TTP" (some 1)
        (Except.ok { orderId := some "2", executedQty := some 1 }) =
      Except.ok
        { ledger := [{ btcRec with status := Status.CLOSED }],
          gateway_called := true, logs := [LogLevel.success] } ∧
    execute_trade default_config [{ btcRec with status := Status.CLOSED }] "BTCUSDT"
        Side.BUY 104 "Strategy_Auto" none
        (Except.ok { orderId := some "3", executedQty := some 1 }) =
      Except.ok
        { ledger := [{ btcRec with status := Status.CLOSED },
            { symbol := "BTCUSDT", order_id := "3", side := Side.BUY, price := 104,
              amount := 1, strategy := "Strategy_Auto", status := Status.OPEN }],
          gateway_called := true, logs := [LogLevel.success] } ∧
    ¬ ((∀ t ∈ [{ btcRec with status := Status.CLOSED },
          { symbol := "BTCUSDT", order_id := "3", side := Side.BUY, price := 104,
            amount := 1, strategy := "Strategy_Auto", status := Status.OPEN }],
          t.status = Status.OPEN) ∨
       (∀ t ∈ [{ btcRec with status := Status.CLOSED },
          { symbol := "BTCUSDT", order_id := "3", side := Side.BUY, price := 104,
            amount := 1, strategy := "Strategy_Auto", status := Status.OPEN }],
          t.status = Status.CLOSED)) := by
  refine ⟨?_, ?_, ?_, ?_⟩
  · norm_num [execute_trade, trade_qty, default_config, btcRec]
  · norm_num [execute_trade, trade_qty, default_config, btcRec]
  · norm_num [execute_trade, trade_qty, default_config, btcRec]
  · intro h
    rcases h with h | h
    · have := h _ (List.mem_cons_self _ _)
      simp [btcRec] at this
    · have := h _ (List.mem_cons_of_mem _ (List.mem_cons_self _ _))
      simp at this

/-! Helper lemmas about `entry_phase`, `check_open_position` and the loop body. -/

theorem check_open_iff (ledger : List TradeRecord) (symbol : String) :
    check_open_position ledger symbol = true ↔ open_trades ledger symbol ≠ [] := by
  simp [check_open_position, List.length_pos]

theorem entry_phase_ledger_after_mgmt (cfg : Config) (peaks : PeakMap)
    (led1 : List TradeRecord) (symbol : String) (price : ℚ) (signal : String)
    (gw_entry : Except Unit OrderResult) (mgmt_call : Option TradeCall) :
    (entry_phase cfg peaks led1 symbol price signal gw_entry mgmt_call).ledger_after_mgmt =
      led1 := by
  unfold entry_phase
  split_ifs
  · rfl
  · cases execute_trade cfg led1 symbol Side.BUY price "Strategy_Auto" none gw_entry <;> rfl
  · rfl

theorem entry_phase_mgmt_call (cfg : Config) (peaks : PeakMap)
    (led1 : List TradeRecord) (symbol : String) (price : ℚ) (signal : String)
    (gw_entry : Except Unit OrderResult) (mgmt_call : Option TradeCall) :
    (entry_phase cfg peaks led1 symbol price signal gw_entry mgmt_call).mgmt_call =
      mgmt_call := by
  unfold entry_phase
  split_ifs
  · rfl
  · cases execute_trade cfg led1 symbol Side.BUY price "Strategy_Auto" none gw_entry <;> rfl
  · rfl

theorem entry_phase_entry_buy_spec (cfg : Config) (peaks : PeakMap)
    (led1 : List TradeRecord) (symbol : String) (price : ℚ) (signal : String)
    (gw_entry : Except Unit OrderResult) (mgmt_call : Option TradeCall)
    (h : (entry_phase cfg peaks led1 symbol price signal gw_entry mgmt_call).entry_buy =
      true) :
    check_open_position led1 symbol = false ∧ signal = "BUY" := by
  unfold entry_phase at h
  by_cases h1 : check_open_position led1 symbol = true
  · rw [if_pos h1] at h
    exact absurd h (by simp)
  · rw [if_neg h1] at h
    by_cases h2 : signal = "BUY"
    · exact ⟨by simpa using h1, h2⟩
    · rw [if_neg h2] at h
      exact absurd h (by simp)

theorem entry_phase_check_true (cfg : Config) (peaks : PeakMap)
    (led1 : List TradeRecord) (symbol : String) (price : ℚ) (signal : String)
    (gw_entry : Except Unit OrderResult) (mgmt_call : Option TradeCall)
    (h : check_open_position led1 symbol = true) :
    (entry_phase cfg peaks led1 symbol price signal gw_entry mgmt_call).entry_buy =
      false := by
  unfold entry_phase
  rw [if_pos h]

theorem manage_call_nonempty (cfg : Config) (peaks : PeakMap) (ledger : List TradeRecord)
    (symbol : String) (price : ℚ) (c : TradeCall)
    (h : (manage_open_positions cfg peaks ledger symbol price).outcome =
      Except.ok (some c)) :
    open_trades ledger symbol ≠ [] := by
  intro he
  rw [manage_empty_spec cfg peaks ledger symbol price he] at h
  simp at h

theorem execute_buy_open_after (cfg : Config) (ledger : List TradeRecord) (symbol : String)
    (price : ℚ) (strat : String) (caa : Option ℚ) (gw : Except Unit OrderResult)
    (r : ExecResult)
    (h : execute_trade cfg ledger symbol Side.BUY price strat caa gw = Except.ok r)
    (hne : open_trades ledger symbol ≠ []) :
    open_trades r.ledger symbol ≠ [] := by
  cases htq : trade_qty cfg.trade_amount_usdt Side.BUY price caa with
  | error e =>
    have : execute_trade cfg ledger symbol Side.BUY price strat caa gw = Except.error e := by
      unfold execute_trade; rw [htq]
    rw [this] at h
    exact absurd h (by simp)
  | ok q =>
    by_cases hn : q * price < 10
    · have hcomp : execute_trade cfg ledger symbol Side.BUY price strat caa gw =
          Except.ok ⟨ledger, false, [LogLevel.warning]⟩ := by
        unfold execute_trade; rw [htq]; simp [hn]
      rw [hcomp] at h
      obtain rfl := Except.ok.inj h
      exact hne
    · cases gw with
      | error ge =>
        have hcomp : execute_trade cfg ledger symbol Side.BUY price strat caa
            (Except.error ge) = Except.ok ⟨ledger, true, [LogLevel.error]⟩ := by
          unfold execute_trade; rw [htq]; simp [hn]
        rw [hcomp] at h
        obtain rfl := Except.ok.inj h
        exact hne
      | ok res =>
        have hcomp : execute_trade cfg ledger symbol Side.BUY price strat caa
            (Except.ok res) =
            Except.ok ⟨ledger ++
              [⟨symbol, res.orderId.getD "TEST_ORDER_ID", Side.BUY, price,
                res.executedQty.getD q, strat, Status.OPEN⟩],
              true, [LogLevel.success]⟩ := by
          unfold execute_trade; rw [htq]; simp [hn]
        rw [hcomp] at h
        obtain rfl := Except.ok.inj h
        intro hcontra
        rw [open_trades_append] at hcontra
        exact hne (List.append_eq_nil.mp hcontra).1

/-- C8 (amended): in one loop-body step, a fresh strategy BUY executes only
when, after the management phase settled, the symbol has no OPEN record and
the selected strategy signalled "BUY"; and when the management action was a
(DCA) BUY the position stays open, so no fresh entry can follow it.  A
successful TTP SELL, however, removes every OPEN record, so the same cycle
can then open a new position (see the counterexample). -/
theorem fresh_entry_gating (cfg : Config) (peaks : PeakMap) (ledger : List TradeRecord)
    (symbol : String) (price : ℚ) (signal : String)
    (gw_mgmt gw_entry : Except Unit OrderResult) (c : TradeCall) :
    ((run_symbol_step cfg peaks ledger symbol price signal gw_mgmt gw_entry).mgmt_call =
        some c →
      c.side = Side.BUY →
      (run_symbol_step cfg peaks ledger symbol price signal gw_mgmt gw_entry).entry_buy =
        false) ∧
    ((run_symbol_step cfg peaks ledger symbol price signal gw_mgmt gw_entry).entry_buy =
        true →
      check_open_position
        (run_symbol_step cfg peaks ledger symbol price signal gw_mgmt
          gw_entry).ledger_after_mgmt symbol = false ∧
      signal = "BUY") := by
  simp only [run_symbol_step]
  split
  · refine ⟨?_, ?_⟩
    · intro h1
      exact absurd h1 (by simp)
    · intro h1
      exact absurd h1 (by simp)
  · refine ⟨?_, ?_⟩
    · intro h1
      rw [entry_phase_mgmt_call] at h1
      exact absurd h1 (by simp)
    · intro h1
      have h2 := entry_phase_entry_buy_spec _ _ _ _ _ _ _ _ h1
      rw [entry_phase_ledger_after_mgmt]
      exact h2
  · rename_i c0 hm
    split
    · refine ⟨?_, ?_⟩
      · intro _ _
        rfl
      · intro h1
        exact absurd h1 (by simp)
    · rename_i r hx
      refine ⟨?_, ?_⟩
      · intro h1 hbuy
        rw [entry_phase_mgmt_call] at h1
        obtain rfl := Option.some.inj h1
        have hne := manage_call_nonempty cfg peaks ledger symbol price c0 hm
        have hx2 : execute_trade cfg ledger symbol Side.BUY c0.price c0.strategy
            c0.close_all_amount gw_mgmt = Except.ok r := by
          rw [← hbuy]; exact hx
        have hopen := execute_buy_open_after cfg ledger symbol c0.price c0.strategy
          c0.close_all_amount gw_mgmt r hx2 hne
        exact entry_phase_check_true _ _ _ _ _ _ _ _ ((check_open_iff _ _).mpr hopen)
      · intro h1
        have h2 := entry_phase_entry_buy_spec _ _ _ _ _ _ _ _ h1
        rw [entry_phase_ledger_after_mgmt]
        exact h2

/-- Witness for C8: average price 100, current price 94: the DCA BUY fires
and even though the strategy signals "BUY", no fresh entry BUY executes in
the same step (the DCA insert keeps an OPEN record in place). -/
theorem fresh_entry_gating_witness :
    (run_symbol_step default_config [] [btcRec] "BTCUSDT" 94 "BUY"
        (Except.ok { orderId := some "2", executedQty := some 1 })
        (Except.ok { orderId := some "3", executedQty := none })).mgmt_call =
      some
        { side := Side.BUY, price := 94, strategy := "DCA", close_all_amount := none } ∧
    (run_symbol_step default_config [] [btcRec] "BTCUSDT" 94 "BUY"
        (Except.ok { orderId := some "2", executedQty := some 1 })
        (Except.ok { orderId := some "3", executedQty := none })).entry_buy = false := by
  have hcall : (run_symbol_step default_config [] [btcRec] "BTCUSDT" 94 "BUY"
      (Except.ok { orderId := some "2", executedQty := some 1 })
      (Except.ok { orderId := some "3", executedQty := none })).mgmt_call =
      some
        { side := Side.BUY, price := 94, strategy := "DCA",
          close_all_amount := none } := by
    norm_num [run_symbol_step, manage_open_positions, entry_phase, execute_trade,
      trade_qty, check_open_position, open_trades, avg_price_of, total_open_amount,
      total_open_cost, pmLookup, pmInsert, pmErase, default_config, btcRec,
      List.filter_cons, List.filter_nil, status_closed_ne_open]
  refine ⟨hcall, ?_⟩
  exact (fresh_entry_gating default_config [] [btcRec] "BTCUSDT" 94 "BUY"
    (Except.ok { orderId := some "2", executedQty := some 1 })
    (Except.ok { orderId := some "3", executedQty := none })
    { side := Side.BUY, price := 94, strategy := "DCA", close_all_amount := none }).1
    hcall rfl

/-- Counterexample for C8: stored peak 106, average 100, price 104.8 and a
"BUY" signal: the TTP SELL closes the whole position and in the very same
step a fresh entry BUY executes for the symbol. -/
theorem ttp_sell_then_fresh_buy_counterexample :
    (run_symbol_step default_config [("BTCUSDT", 106)] [btcRec] "BTCUSDT" (524/5) "BUY"
        (Except.ok { orderId := some "2", executedQty := some 1 })
        (Except.ok { orderId := some "3", executedQty := some 1 })).mgmt_call =
      some
        { side := Side.SELL, price := 524/5, strategy := "TTP",
          close_all_amount := some 1 } ∧
    (run_symbol_step default_config [("BTCUSDT", 106)] [btcRec] "BTCUSDT" (524/5) "BUY"
        (Except.ok { orderId := some "2", executedQty := some 1 })
        (Except.ok { orderId := some "3", executedQty := some 1 })).entry_buy = true := by
  norm_num [run_symbol_step, manage_open_positions, entry_phase, execute_trade, trade_qty,
    check_open_position, open_trades, avg_price_of, total_open_amount, total_open_cost,
    pmLookup, pmInsert, pmErase, default_config, btcRec, List.filter_cons,
    List.filter_nil, status_closed_ne_open]

/-- C9 (amended): per `manage_open_positions` step, (a) a step that starts
with no OPEN records clears the symbol's peak entry; (b) whenever the peak
entry is at least the weighted-average entry price before the step, it still
is afterwards (and a freshly created entry is as well); (c) a present peak
never decreases across the step while the position stays open.  The stronger
claim that the peak is cleared at every point at which the symbol has no
OPEN records fails: after a TTP SELL inside the step the records are CLOSED
but the peak survives until the next step (see the counterexample). -/
theorem peak_state_step_invariants (cfg : Config) (peaks : PeakMap)
    (ledger : List TradeRecord) (symbol : String) (price : ℚ) :
    (open_trades ledger symbol = [] →
      pmLookup (manage_open_positions cfg peaks ledger symbol price).peak_prices
        symbol = none) ∧
    (open_trades ledger symbol ≠ [] →
      0 < avg_price_of (open_trades ledger symbol) →
      0 < cfg.ttp_activation_pct →
      0 ≤ cfg.dca_drop_pct →
      ((∀ p, pmLookup peaks symbol = some p →
          avg_price_of (open_trades ledger symbol) ≤ p) →
        ∀ q, pmLookup (manage_open_positions cfg peaks ledger symbol price).peak_prices
            symbol = some q →
          avg_price_of (open_trades ledger symbol) ≤ q) ∧
      (∀ p, pmLookup peaks symbol = some p →
        ∃ q, pmLookup (manage_open_positions cfg peaks ledger symbol price).peak_prices
            symbol = some q ∧ p ≤ q)) := by
  constructor
  · intro he
    rw [manage_empty_spec cfg peaks ledger symbol price he]
    exact pmLookup_pmErase_self peaks symbol
  · intro hne havg hactpos hdcapos
    by_cases hd : (price - avg_price_of (open_trades ledger symbol)) /
        avg_price_of (open_trades ledger symbol) ≤ -cfg.dca_drop_pct
    · rw [manage_dca_spec cfg peaks ledger symbol price hne (ne_of_gt havg) hd]
      constructor
      · intro hpre q hq
        exact hpre q hq
      · intro p hp
        exact ⟨p, hp, le_refl p⟩
    · by_cases ha : cfg.ttp_activation_pct ≤
          (price - avg_price_of (open_trades ledger symbol)) /
            avg_price_of (open_trades ledger symbol)
      · obtain ⟨h1, h2, h3⟩ := manage_ttp_spec cfg peaks ledger symbol price _ _ _
          rfl rfl rfl hne havg hactpos hdcapos ha
        constructor
        · intro hpre q hq
          rw [h2] at hq
          obtain rfl := Option.some.inj hq
          rcases hl : pmLookup peaks symbol with _ | p
          · simp [le_max_left (avg_price_of (open_trades ledger symbol)) price]
          · simp only [Option.getD_some]
            exact le_trans (hpre p hl) (le_max_left _ _)
        · intro p hp
          refine ⟨max ((pmLookup peaks symbol).getD
            (avg_price_of (open_trades ledger symbol))) price, h2, ?_⟩
          rw [hp]
          simp only [Option.getD_some]
          exact le_max_left _ _
      · rw [manage_noaction_spec cfg peaks ledger symbol price hne (ne_of_gt havg) hd ha]
        constructor
        · intro hpre q hq
          exact hpre q hq
        · intro p hp
          exact ⟨p, hp, le_refl p⟩

/-- Witness for C9: a cleared peak on an empty position, and a preserved,
non-decreasing peak 105 ≥ avgPrice 100 on a no-action step at price 96. -/
theorem peak_state_step_invariants_witness :
    pmLookup (manage_open_positions default_config [("BTCUSDT", 105)] [] "BTCUSDT"
      96).peak_prices "BTCUSDT" = none ∧
    (∃ q, pmLookup (manage_open_positions default_config [("BTCUSDT", 105)] [btcRec]
        "BTCUSDT" 96).peak_prices "BTCUSDT" = some q ∧ (105 : ℚ) ≤ q) := by
  refine ⟨(peak_state_step_invariants default_config [("BTCUSDT", 105)] [] "BTCUSDT"
    96).1 (by norm_num [open_trades]), ?_⟩
  obtain ⟨_, hmono⟩ := (peak_state_step_invariants default_config [("BTCUSDT", 105)]
    [btcRec] "BTCUSDT" 96).2 ne_nil_btcRec (by rw [avg_btcRec]; norm_num)
    (by norm_num [default_config]) (by norm_num [default_config])
  exact hmono 105 (by norm_num [pmLookup])

/-- Counterexample for C9: after the TTP SELL closes the whole position
inside the step, the cycle ends with no OPEN BTCUSDT record while the stale
peak 106 is still stored. -/
theorem stale_peak_after_sell_counterexample :
    open_trades (run_symbol_step default_config [("BTCUSDT", 106)] [btcRec] "BTCUSDT"
      (524/5) "HOLD" (Except.ok { orderId := some "2", executedQty := some 1 })
      (Except.ok { orderId := none, executedQty := none })).ledger "BTCUSDT" = [] ∧
    pmLookup (run_symbol_step default_config [("BTCUSDT", 106)] [btcRec] "BTCUSDT"
      (524/5) "HOLD" (Except.ok { orderId := some "2", executedQty := some 1 })
      (Except.ok { orderId := none, executedQty := none })).peak_prices "BTCUSDT" =
      some 106 := by
  norm_num [run_symbol_step, manage_open_positions, entry_phase, execute_trade, trade_qty,
    check_open_position, open_trades, avg_price_of, total_open_amount, total_open_cost,
    pmLookup, pmInsert, pmErase, default_config, btcRec, List.filter_cons,
    List.filter_nil, status_closed_ne_open, hold_ne_buy]

/-! Lemmas about the decimal embedding. -/

theorem stripZeros_toRat (fuel : Nat) : ∀ c e : Int,
    (((stripZeros fuel c e).1 : ℚ)) * 10 ^ (stripZeros fuel c e).2 =
      (c : ℚ) * 10 ^ e := by
  induction fuel with
  | zero => intro c e; rfl
  | succ m ih =>
    intro c e
    have hstep : stripZeros (m + 1) c e =
        if c ≠ 0 ∧ c % 10 = 0 then stripZeros m (c / 10) (e + 1) else (c, e) := rfl
    rw [hstep]
    by_cases h : c ≠ 0 ∧ c % 10 = 0
    · rw [if_pos h, ih]
      obtain ⟨k, hk⟩ := Int.dvd_of_emod_eq_zero h.2
      subst hk
      rw [Int.mul_ediv_cancel_left _ (by norm_num : (10:ℤ) ≠ 0)]
      push_cast
      rw [zpow_add_one₀ (by norm_num : (10:ℚ) ≠ 0)]
      ring
    · rw [if_neg h]

theorem Dec.toRat_normalize (d : Dec) : d.normalize.toRat = d.toRat := by
  unfold Dec.normalize
  by_cases h : d.coeff = 0
  · rw [if_pos h]
    unfold Dec.toRat
    simp [h]
  · rw [if_neg h]
    exact stripZeros_toRat _ _ _

theorem Dec.toRat_mul (a b : Dec) : (a.mul b).toRat = a.toRat * b.toRat := by
  unfold Dec.mul Dec.toRat
  push_cast
  rw [zpow_add₀ (by norm_num : (10:ℚ) ≠ 0)]
  ring

theorem Dec.toRat_floordiv (a b : Dec) :
    (a.floordiv b).toRat = (truncQ (a.toRat / b.toRat) : ℚ) := by
  unfold Dec.floordiv Dec.toRat
  simp

theorem truncQ_of_nonneg (q : ℚ) (h : 0 ≤ q) : truncQ q = ⌊q⌋ := if_pos h

theorem natDigits_mem (fuel : Nat) : ∀ n : Nat, ∀ c ∈ natDigits fuel n,
    c ≠ 'e' ∧ c ≠ 'E' := by
  induction fuel with
  | zero =>
    intro n c hc
    simp [natDigits] at hc
  | succ m ih =>
    intro n c hc
    have hstep : natDigits (m + 1) n =
        if n = 0 then [] else natDigits m (n / 10) ++ [Char.ofNat (48 + n % 10)] := rfl
    rw [hstep] at hc
    by_cases h : n = 0
    · rw [if_pos h] at hc
      simp at hc
    · rw [if_neg h] at hc
      rcases List.mem_append.mp hc with h1 | h2
      · exact ih _ c h1
      · simp only [List.mem_singleton] at h2
        subst h2
        have h10 : n % 10 < 10 := Nat.mod_lt _ (by norm_num)
        set m2 := n % 10 with hm2
        interval_cases m2 <;> exact ⟨by decide, by decide⟩

theorem natStr_mem (n : Nat) : ∀ c ∈ natStr n, c ≠ 'e' ∧ c ≠ 'E' := by
  intro c hc
  unfold natStr at hc
  by_cases h : n = 0
  · rw [if_pos h] at hc
    simp only [List.mem_singleton] at hc
    subst hc
    exact ⟨by decide, by decide⟩
  · rw [if_neg h] at hc
    exact natDigits_mem _ _ c hc

theorem fmtChars_mem (d : Dec) : ∀ c ∈ d.fmtChars, c ≠ 'e' ∧ c ≠ 'E' := by
  have hP0 : ∀ n : Nat, ∀ c ∈ List.replicate n (Char.ofNat 48), c ≠ 'e' ∧ c ≠ 'E' := by
    intro n c hc
    have := List.eq_of_mem_replicate hc
    subst this
    exact ⟨by decide, by decide⟩
  have hsign : ∀ c ∈ (if d.coeff < 0 then ['-'] else ([] : List Char)),
      c ≠ 'e' ∧ c ≠ 'E' := by
    intro c hc
    by_cases hs : d.coeff < 0
    · rw [if_pos hs] at hc
      simp only [List.mem_singleton] at hc
      subst hc
      exact ⟨by decide, by decide⟩
    · rw [if_neg hs] at hc
      simp at hc
  have hdig := natStr_mem d.coeff.natAbs
  have hds : ∀ c ∈ (if (natStr d.coeff.natAbs).length ≤ (-d.exp).toNat then
        List.replicate ((-d.exp).toNat + 1 - (natStr d.coeff.natAbs).length)
          (Char.ofNat 48) ++ natStr d.coeff.natAbs
      else natStr d.coeff.natAbs), c ≠ 'e' ∧ c ≠ 'E' := by
    intro c hc
    by_cases hl : (natStr d.coeff.natAbs).length ≤ (-d.exp).toNat
    · rw [if_pos hl] at hc
      rcases List.mem_append.mp hc with h1 | h2
      · exact hP0 _ c h1
      · exact hdig c h2
    · rw [if_neg hl] at hc
      exact hdig c hc
  simp only [Dec.fmtChars]
  by_cases hexp : 0 ≤ d.exp
  · rw [if_pos hexp]
    simp only [List.forall_mem_append]
    and_intros <;>
      first
        | exact hsign
        | exact hdig
        | exact hP0 _
  · rw [if_neg hexp]
    simp only [List.forall_mem_append]
    and_intros <;>
      first
        | exact hsign
        | exact fun c hc => hds c (List.take_subset _ _ hc)
        | exact fun c hc => hds c (List.drop_subset _ _ hc)
        | exact fun c hc => by
            simp only [List.mem_singleton] at hc
            subst hc
            exact ⟨by decide, by decide⟩

/-- C6 (amended): `format_number` passes the value through as its plain
fixed-point string when no filter data or no step size is known; with a
known step of positive value and a non-negative input it returns the
rendering of `(value // step) * step`, whose exact value is
`⌊value / step⌋ * step` — an integer multiple of the step, at most the
input — and the rendered string never contains an exponent marker.  (For
negative inputs the Decimal `//` truncates toward zero instead of flooring;
see the counterexample.) -/
theorem format_number_spec (symbol_filters : List (String × List (String × ExchFilter)))
    (symbol : String) (value : Dec) (filter_type : String) :
    (alistLookup symbol_filters symbol = none →
      format_number symbol_filters symbol value filter_type = value.fmt) ∧
    (∀ filters, alistLookup symbol_filters symbol = some filters →
      (((alistLookup filters filter_type).getD ⟨none, none⟩).stepSize.orElse
        (fun _ => ((alistLookup filters filter_type).getD ⟨none, none⟩).tickSize)) =
        none →
      format_number symbol_filters symbol value filter_type = value.fmt) ∧
    (∀ filters step, alistLookup symbol_filters symbol = some filters →
      (((alistLookup filters filter_type).getD ⟨none, none⟩).stepSize.orElse
        (fun _ => ((alistLookup filters filter_type).getD ⟨none, none⟩).tickSize)) =
        some step →
      0 < step.toRat → 0 ≤ value.toRat →
      format_number symbol_filters symbol value filter_type =
        ((value.floordiv step.normalize).mul step.normalize).fmt ∧
      ((value.floordiv step.normalize).mul step.normalize).toRat =
        (⌊value.toRat / step.toRat⌋ : ℚ) * step.toRat ∧
      (∃ k : ℤ, ((value.floordiv step.normalize).mul step.normalize).toRat =
        (k : ℚ) * step.toRat) ∧
      ((value.floordiv step.normalize).mul step.normalize).toRat ≤ value.toRat ∧
      (∀ c ∈ (format_number symbol_filters symbol value filter_type).toList,
        c ≠ 'e' ∧ c ≠ 'E')) := by
  refine ⟨?_, ?_, ?_⟩
  · intro h
    simp only [format_number, h]
  · intro filters h1 h2
    simp only [format_number, h1, h2]
  · intro filters step h1 h2 hstep hval
    have hfmt : format_number symbol_filters symbol value filter_type =
        ((value.floordiv step.normalize).mul step.normalize).fmt := by
      simp only [format_number, h1, h2]
    have hsnorm : step.normalize.toRat = step.toRat := Dec.toRat_normalize step
    have hs0 : step.toRat ≠ 0 := ne_of_gt hstep
    have hq0 : 0 ≤ value.toRat / step.toRat := div_nonneg hval (le_of_lt hstep)
    have hvalue : ((value.floordiv step.normalize).mul step.normalize).toRat =
        (⌊value.toRat / step.toRat⌋ : ℚ) * step.toRat := by
      rw [Dec.toRat_mul, Dec.toRat_floordiv, hsnorm, truncQ_of_nonneg _ hq0]
    refine ⟨hfmt, hvalue, ⟨⌊value.toRat / step.toRat⌋, hvalue⟩, ?_, ?_⟩
    · rw [hvalue]
      have hle : (⌊value.toRat / step.toRat⌋ : ℚ) ≤ value.toRat / step.toRat :=
        Int.floor_le _
      have := mul_le_mul_of_nonneg_right hle (le_of_lt hstep)
      rwa [div_mul_cancel₀ _ hs0] at this
    · intro c hc
      rw [hfmt] at hc
      exact fmtChars_mem _ c hc

/-- Witness for C6: step size `Decimal("0.00100000")` (normalizing to
0.001) and input 0.0012345 quantize to the string "0.001", whose value is
`⌊0.0012345 / 0.001⌋ * 0.001`; with no filter data the value is passed
through. -/
theorem format_number_spec_witness :
    format_number exFilters "BTCUSDT" ⟨12345, -7⟩ "LOT_SIZE" =
      ((Dec.mk 12345 (-7)).floordiv (Dec.mk 100000 (-8)).normalize |>.mul
        (Dec.mk 100000 (-8)).normalize).fmt ∧
    format_number exFilters "BTCUSDT" ⟨12345, -7⟩ "LOT_SIZE" = "0.001" ∧
    ((Dec.mk 12345 (-7)).floordiv (Dec.mk 100000 (-8)).normalize |>.mul
      (Dec.mk 100000 (-8)).normalize).toRat =
      (⌊(Dec.mk 12345 (-7)).toRat / (Dec.mk 100000 (-8)).toRat⌋ : ℚ) *
        (Dec.mk 100000 (-8)).toRat ∧
    format_number [] "ETHUSDT" ⟨5, -1⟩ "LOT_SIZE" = (Dec.mk 5 (-1)).fmt := by
  obtain ⟨hfmt, hvalue, _, _, _⟩ :=
    (format_number_spec exFilters "BTCUSDT" ⟨12345, -7⟩ "LOT_SIZE").2.2
      [("LOT_SIZE", ⟨some ⟨100000, -8⟩, none⟩)] ⟨100000, -8⟩
      (by norm_num [exFilters, alistLookup])
      (by norm_num [alistLookup, Option.orElse])
      (by norm_num [Dec.toRat])
      (by norm_num [Dec.toRat])
  refine ⟨hfmt, ?_, hvalue,
    (format_number_spec [] "ETHUSDT" ⟨5, -1⟩ "LOT_SIZE").1 rfl⟩
  rw [hfmt]
  have hnorm : (Dec.mk 100000 (-8)).normalize = Dec.mk 1 (-3) := by decide
  rw [hnorm]
  have htr : truncQ ((Dec.mk 12345 (-7)).toRat / (Dec.mk 1 (-3)).toRat) = 1 := by
    rw [truncQ_of_nonneg _ (by norm_num [Dec.toRat])]
    norm_num [Dec.toRat]
  have hdiv : (Dec.mk 12345 (-7)).floordiv (Dec.mk 1 (-3)) = Dec.mk 1 0 := by
    unfold Dec.floordiv
    rw [htr]
  rw [hdiv]
  decide

/-- Counterexample for C6: on the negative input -0.0015 with step 0.001 the
code returns "-0.001" (truncation toward zero), while
`⌊value / step⌋ * step = -0.002`; the output value -0.001 exceeds the input
-0.0015, refuting both the floor formula and the ≤-input property for
arbitrary numeric values. -/
theorem format_number_negative_counterexample :
    format_number exFilters "BTCUSDT" ⟨-15, -4⟩ "LOT_SIZE" = "-0.001" ∧
    (Dec.mk (-1) (-3)).fmt = "-0.001" ∧
    (Dec.mk (-1) (-3)).toRat = -1/1000 ∧
    (⌊(Dec.mk (-15) (-4)).toRat / (Dec.mk 100000 (-8)).toRat⌋ : ℚ) *
      (Dec.mk 100000 (-8)).toRat = -1/500 ∧
    ¬ ((-1 : ℚ)/1000 ≤ (Dec.mk (-15) (-4)).toRat) ∧
    ((-1 : ℚ)/1000 ≠ -1/500) := by
  have hnorm : (Dec.mk 100000 (-8)).normalize = Dec.mk 1 (-3) := by decide
  have hceil : truncQ ((Dec.mk (-15) (-4)).toRat / (Dec.mk 1 (-3)).toRat) = -1 := by
    have hq : (Dec.mk (-15) (-4)).toRat / (Dec.mk 1 (-3)).toRat = -(3/2) := by
      norm_num [Dec.toRat]
    rw [hq]
    unfold truncQ
    rw [if_neg (by norm_num)]
    rw [Int.ceil_eq_iff]
    norm_num
  refine ⟨?_, ?_, ?_, ?_, ?_, ?_⟩
  · have hstep : format_number exFilters "BTCUSDT" ⟨-15, -4⟩ "LOT_SIZE" =
        ((Dec.mk (-15) (-4)).floordiv (Dec.mk 100000 (-8)).normalize |>.mul
          (Dec.mk 100000 (-8)).normalize).fmt := by
      norm_num [format_number, exFilters, alistLookup, Option.orElse]
    rw [hstep, hnorm]
    have hdiv : (Dec.mk (-15) (-4)).floordiv (Dec.mk 1 (-3)) = Dec.mk (-1) 0 := by
      unfold Dec.floordiv
      rw [hceil]
    rw [hdiv]
    decide
  · decide
  · norm_num [Dec.toRat]
  · have hq : (Dec.mk (-15) (-4)).toRat / (Dec.mk 100000 (-8)).toRat = -(3/2) := by
      norm_num [Dec.toRat]
    rw [hq]
    have hfloor : ⌊-(3/2 : ℚ)⌋ = -2 := by norm_num
    rw [hfloor]
    norm_num [Dec.toRat]
  · norm_num [Dec.toRat]
  · norm_num

end BinanceBot
